import Mathlib

/-
Shallow embedding of the stx package (context-scoped transactional state
container over gorm).  Source: the package file `stx.go` (current revision,
the one defining STX with a callback queue, OnSuccess and WithDefer).

Modelling choices:
* A gorm `*gorm.DB` value is reduced to the two connection-pool identities
  the package reads (`Statement.ConnPool` and `Statement.DB.ConnPool`),
  identities being abstract naturals, `none` standing for a nil interface.
* The external store (gorm) is specified only at its interface boundary
  (begin / commit / rollback / Transaction); its reaction is captured by a
  `StoreBehavior` record (whether commit and rollback fail, and which pool
  identity a fresh transaction is bound to).  Store-level calls are logged
  as events so "no effect on the store" is expressible.
* `*STX` handles live in a heap (list indexed by allocation order); a Go
  callback `func()` is an opaque token, and running it appends the token to
  an execution log.
* A Go `error` is the inductive `GErr`; a panic payload (`any`) is
  `PanicVal`; a `*error` out-parameter is `Option (Option GErr)` (`none`
  for a nil pointer); a unit of work returns an `Outcome` (normal nil
  return, error return, or panic).
-/

namespace Stx

/-- Go errors visible to the package: `gorm.ErrInvalidTransaction`,
`errors.New` values, `STXError{Message, Err}` values (`stxError` for a
non-nil `Err`, `stxErrorNil` for a nil one), and opaque errors coming
back from the underlying store. -/
inductive GErr where
  | invalidTransaction : GErr
  | simple : String → GErr
  | stxError : String → GErr → GErr
  | stxErrorNil : String → GErr
  | storeErr : Nat → GErr
deriving DecidableEq

/-- `Error()` on the modelled errors; `STXError.Error` returns
`Message + ": " + Err.Error()` when `Err` is non-nil, else `Message`. -/
def errMessage : GErr → String
  | .invalidTransaction => "invalid transaction"
  | .simple s => s
  | .stxError m e => m ++ ": " ++ errMessage e
  | .stxErrorNil m => m
  | .storeErr n => "store error " ++ toString n

/-- `Unwrap()`: `STXError.Unwrap` returns its `Err` field; the other error
kinds have no unwrap method. -/
def unwrapErr : GErr → Option GErr
  | .stxError _ e => some e
  | _ => none

/-- A panic payload (`any` in Go): an error value, a string, or anything
else. -/
inductive PanicVal where
  | errVal : GErr → PanicVal
  | strVal : String → PanicVal
  | otherVal : Nat → PanicVal
deriving DecidableEq

/-- `panicError(v any) error` from the source: error payloads and string
payloads are wrapped in an STXError with message "recovered from panic";
any other payload produces the bare error "recovered from panic". -/
def panicError : PanicVal → GErr
  | .errVal e => .stxError "recovered from panic" e
  | .strVal s => .stxError "recovered from panic" (.simple s)
  | .otherVal _ => .simple "recovered from panic"

/-- The part of a `*gorm.DB` the package reads: the bound connection
identity `Statement.ConnPool` and the root connection identity
`Statement.DB.ConnPool` (`none` models a nil interface value). -/
structure DB where
  stmtConnPool : Option Nat
  rootConnPool : Option Nat
deriving DecidableEq

/-- The mutable state of one `*STX` value: its `db` field (`none` models a
nil `*gorm.DB`) and its `callbacks` slice (opaque callback tokens). -/
structure HandleRec where
  db : Option DB
  callbacks : List Nat
deriving DecidableEq

/-- What a context stores under the key `stx:tx`: a value that is not a
`*STX`, a nil `*STX`, or a pointer to a live `*STX` (heap index). -/
inductive CtxVal where
  | notSTX : CtxVal
  | nilSTX : CtxVal
  | stx : Nat → CtxVal
deriving DecidableEq

/-- A `context.Context`: nil, a context with nothing under the reserved
key, or a context extended with a value under the reserved key
(`context.WithValue`; the nearest value shadows the parent). -/
inductive Context where
  | nilCtx : Context
  | base : Context
  | withVal : Context → CtxVal → Context
deriving DecidableEq

/-- `ctx.Value(txContextKey)`. -/
def ctxValue : Context → Option CtxVal
  | .nilCtx => none
  | .base => none
  | .withVal _ v => some v

/-- Calls the package makes into the external store, recorded in order;
the flag on commit and rollback says whether the store reported success. -/
inductive Event where
  | beginTx : Event
  | commitEvt : Bool → Event
  | rollbackEvt : Bool → Event
deriving DecidableEq

/-- Global state threaded through the operations: the heap of `*STX`
handles, the trace of store-level calls, and the log of callback
executions. -/
structure World where
  heap : List HandleRec
  events : List Event
  executed : List Nat
deriving DecidableEq

/-- Reaction of the external store, fixed for a run: the error (if any)
its commit and rollback return, and the connection-pool identity it binds
a newly begun transaction to. -/
structure StoreBehavior where
  commitErr : Option GErr
  rollbackErr : Option GErr
  txPool : Nat
deriving DecidableEq

/-- `Current(ctx)`: nil for a nil context, for a context carrying nothing
under the key, for a value that is not a well-formed `*STX`; otherwise the
handle's `db` field. -/
def Current (w : World) (ctx : Context) : Option DB :=
  if ctx = .nilCtx then none
  else
    match ctxValue ctx with
    | none => none
    | some .notSTX => none
    | some .nilSTX => none
    | some (.stx h) =>
      match w.heap.get? h with
      | none => none
      | some r => r.db

/-- `New(ctx, db)`: allocates a fresh `&STX{db: db}` and returns the
context extended with it. -/
def New (w : World) (ctx : Context) (db : Option DB) : World × Context :=
  (⟨w.heap ++ [⟨db, []⟩], w.events, w.executed⟩, .withVal ctx (.stx w.heap.length))

/-- `IsTx(ctx)`: the bound connection is non-nil and differs from the root
connection identity. -/
def IsTx (w : World) (ctx : Context) : Bool :=
  match Current w ctx with
  | none => false
  | some db => db.stmtConnPool.isSome && db.stmtConnPool != db.rootConnPool

/-- `Commit(ctx)`: nil when no store is bound or no transaction is active;
otherwise performs the store-level commit and surfaces its error. -/
def Commit (w : World) (beh : StoreBehavior) (ctx : Context) : World × Option GErr :=
  match Current w ctx with
  | none => (w, none)
  | some _ =>
    if IsTx w ctx then
      match beh.commitErr with
      | none => (⟨w.heap, w.events ++ [.commitEvt true], w.executed⟩, none)
      | some e => (⟨w.heap, w.events ++ [.commitEvt false], w.executed⟩, some e)
    else (w, none)

/-- `Rollback(ctx)`: symmetric to `Commit`. -/
def Rollback (w : World) (beh : StoreBehavior) (ctx : Context) : World × Option GErr :=
  match Current w ctx with
  | none => (w, none)
  | some _ =>
    if IsTx w ctx then
      match beh.rollbackErr with
      | none => (⟨w.heap, w.events ++ [.rollbackEvt true], w.executed⟩, none)
      | some e => (⟨w.heap, w.events ++ [.rollbackEvt false], w.executed⟩, some e)
    else (w, none)

/-- The transactional `*gorm.DB` the store hands back from begin: bound to
the behavior's transaction pool, rooted at the parent's root pool. -/
def mkTxDB (beh : StoreBehavior) (db : DB) : DB :=
  ⟨some beh.txPool, db.rootConnPool⟩

/-- `Begin(ctx)`: returns `ctx` unchanged when no store is bound;
otherwise begins a store transaction, wraps it in a brand-new `&STX` and
returns the extended context. -/
def Begin (w : World) (beh : StoreBehavior) (ctx : Context) : World × Context :=
  match Current w ctx with
  | none => (w, ctx)
  | some db =>
    (⟨w.heap ++ [⟨some (mkTxDB beh db), []⟩], w.events ++ [.beginTx], w.executed⟩,
     .withVal ctx (.stx w.heap.length))

/-- Appending a callback to the handle at heap index `h` (the out-of-range
branch is unreachable from the API, where every `*STX` is live). -/
def heapAppendCb (heap : List HandleRec) (h c : Nat) : List HandleRec :=
  match heap.get? h with
  | none => heap
  | some r => heap.set h ⟨r.db, r.callbacks ++ [c]⟩

/-- `OnSuccess(ctx, callback)`: no-op on a nil context or nil callback;
immediate synchronous execution when the context carries no value under
the key or a value that is not a well-formed `*STX`; otherwise the
callback is appended to the handle's queue. -/
def OnSuccess (w : World) (ctx : Context) (cb : Option Nat) : World :=
  match cb with
  | none => w
  | some c =>
    if ctx = .nilCtx then w
    else
      match ctxValue ctx with
      | none => ⟨w.heap, w.events, w.executed ++ [c]⟩
      | some .notSTX => ⟨w.heap, w.events, w.executed ++ [c]⟩
      | some .nilSTX => ⟨w.heap, w.events, w.executed ++ [c]⟩
      | some (.stx h) => ⟨heapAppendCb w.heap h c, w.events, w.executed⟩

/-- The drain both WithTransaction and WithDefer's cleanup perform: fetch
the handle from the context, copy its callback slice under the read lock,
and run each callback in order.  The `callbacks` field is not cleared. -/
def drainCallbacks (w : World) (ctx : Context) : World :=
  match ctxValue ctx with
  | some (.stx h) =>
    match w.heap.get? h with
    | some r => ⟨w.heap, w.events, w.executed ++ r.callbacks⟩
    | none => w
  | _ => w

/-- Result of a unit of work: normal return with nil error, return with a
non-nil error, or a panic escaping it. -/
inductive Outcome where
  | ok : Outcome
  | err : GErr → Outcome
  | panicked : PanicVal → Outcome
deriving DecidableEq

/-- The world as it stands when the unit of work starts inside
`WithTransaction`: the store has begun a transaction and the wrapper has
allocated the fresh `&STX{db: tx}`. -/
def txScopeWorld (w : World) (beh : StoreBehavior) (db : DB) : World :=
  ⟨w.heap ++ [⟨some (mkTxDB beh db), []⟩], w.events ++ [.beginTx], w.executed⟩

/-- The context handed to the unit of work inside `WithTransaction`. -/
def txScopeCtx (w : World) (ctx : Context) : Context :=
  .withVal ctx (.stx w.heap.length)

/-- `WithTransaction(ctx, fn)`: fails with `gorm.ErrInvalidTransaction`
when no store is bound.  Otherwise delegates to the store's `Transaction`
primitive: begin, run the wrapper closure (which builds the fresh handle
context, runs `fn`, and on a nil error drains the handle's callbacks
before returning), then commit on nil error / roll back on error or
panic, a panic propagating after the rollback. -/
def WithTransaction (w : World) (beh : StoreBehavior) (ctx : Context)
    (fn : World → Context → World × Outcome) : World × Outcome :=
  match Current w ctx with
  | none => (w, .err .invalidTransaction)
  | some db =>
    match fn (txScopeWorld w beh db) (txScopeCtx w ctx) with
    | (w3, .ok) =>
      let w4 := drainCallbacks w3 (txScopeCtx w ctx)
      match beh.commitErr with
      | none => (⟨w4.heap, w4.events ++ [.commitEvt true], w4.executed⟩, .ok)
      | some e => (⟨w4.heap, w4.events ++ [.commitEvt false], w4.executed⟩, .err e)
    | (w3, .err e) =>
      (⟨w3.heap, w3.events ++ [.rollbackEvt beh.rollbackErr.isNone], w3.executed⟩, .err e)
    | (w3, .panicked p) =>
      (⟨w3.heap, w3.events ++ [.rollbackEvt beh.rollbackErr.isNone], w3.executed⟩, .panicked p)

/-- `WithDefer(ctx)`: begins via `Begin` and returns the transactional
context; the returned cleanup closure is modelled by `deferCleanup`
applied to that context. -/
def WithDefer (w : World) (beh : StoreBehavior) (ctx : Context) : World × Context :=
  Begin w beh ctx

/-- The cleanup closure returned by `WithDefer`, invoked with the panic in
flight captured by `recover()` (if any) and the caller's error slot
(`none` models a nil `*error`).  Priority: recovered panic (roll back,
absorb, store the converted error), existing business error (roll back,
keep it), commit (store a wrapped commit failure), then drain the
callback queue. -/
def deferCleanup (w : World) (beh : StoreBehavior) (txCtx : Context)
    (recovered : Option PanicVal) (slot : Option (Option GErr)) :
    World × Option (Option GErr) :=
  match recovered with
  | some r =>
    match slot with
    | none => ((Rollback w beh txCtx).1, none)
    | some _ => ((Rollback w beh txCtx).1, some (some (panicError r)))
  | none =>
    match slot with
    | some (some e) => ((Rollback w beh txCtx).1, some (some e))
    | _ =>
      match Commit w beh txCtx with
      | (w1, some ce) =>
        (w1,
         match slot with
         | none => none
         | some _ => some (some (.stxError "failed to commit transaction" ce)))
      | (w1, none) => (drainCallbacks w1 txCtx, slot)

/-- Registering a list of callbacks in order through `OnSuccess`. -/
def registerAll (w : World) (ctx : Context) (cs : List Nat) : World :=
  cs.foldl (fun a c => OnSuccess a ctx (some c)) w

/-- `n` successive calls to `Commit` on the same context. -/
def commitIter (beh : StoreBehavior) (ctx : Context) : Nat → World → World
  | 0, w => w
  | n + 1, w => commitIter beh ctx n (Commit w beh ctx).1

/-- `n` successive calls to `Rollback` on the same context. -/
def rollbackIter (beh : StoreBehavior) (ctx : Context) : Nat → World → World
  | 0, w => w
  | n + 1, w => rollbackIter beh ctx n (Rollback w beh ctx).1

/-- The `db` field of every handle already allocated in `w` is unchanged
in `w'` (new handles may have been allocated, callbacks appended). -/
def dbStable (w w' : World) : Prop :=
  ∀ h r, w.heap.get? h = some r → (w'.heap.get? h).map HandleRec.db = some r.db

/-- The callback queue of the handle the context resolves to. -/
def queuedCallbacks (w : World) (ctx : Context) : List Nat :=
  match ctxValue ctx with
  | some (.stx h) =>
    match w.heap.get? h with
    | some r => r.callbacks
    | none => []
  | _ => []

/-! Concrete fixtures: a root store whose bound and root connection agree
(so `IsTx` is false on it), a world holding one handle wrapping it (the
result of `New` on an empty world), and store behaviors for the
always-succeeding, failing-commit and failing-rollback stores. -/

/-- A root, unscoped `*gorm.DB`: bound connection = root connection. -/
def rootDB : DB := ⟨some 0, some 0⟩

/-- World after `New(Background, rootDB)`: one handle wrapping the root
store, no store events, no callback executions. -/
def w0 : World := ⟨[⟨some rootDB, []⟩], [], []⟩

/-- The context produced by `New(Background, rootDB)`. -/
def ctx0 : Context := .withVal .base (.stx 0)

/-- A store that commits and rolls back successfully; fresh transactions
are bound to pool 1 (distinct from the root pool 0). -/
def beh0 : StoreBehavior := ⟨none, none, 1⟩

/-- A store whose commit step fails. -/
def behCF : StoreBehavior := ⟨some (.storeErr 1), none, 1⟩

/-- A store whose rollback step fails. -/
def behRF : StoreBehavior := ⟨none, some (.storeErr 3), 1⟩

/-- World after `WithDefer(ctx0)` on `w0`: the begun transaction handle. -/
def w1 : World := (WithDefer w0 beh0 ctx0).1

/-- Transactional context returned by `WithDefer(ctx0)` on `w0`. -/
def ctx1 : Context := (WithDefer w0 beh0 ctx0).2

/-- Like `w1`, but with callbacks 4 and 5 already registered on the
transaction handle (and the begin event elided). -/
def w2c : World := ⟨[⟨some rootDB, []⟩, ⟨some ⟨some 1, some 0⟩, [4, 5]⟩], [], []⟩

end Stx

/-! Frame lemmas: which components of the world each operation leaves
untouched, and how the defensive no-op paths behave. -/

namespace Stx

lemma commit_frame (w : World) (beh : StoreBehavior) (ctx : Context) :
    (Commit w beh ctx).1.heap = w.heap ∧ (Commit w beh ctx).1.executed = w.executed := by
  unfold Commit
  repeat' split
  all_goals exact ⟨rfl, rfl⟩

lemma rollback_frame (w : World) (beh : StoreBehavior) (ctx : Context) :
    (Rollback w beh ctx).1.heap = w.heap ∧ (Rollback w beh ctx).1.executed = w.executed := by
  unfold Rollback
  repeat' split
  all_goals exact ⟨rfl, rfl⟩

lemma commit_noop (w : World) (beh : StoreBehavior) (ctx : Context)
    (h : IsTx w ctx = false) : Commit w beh ctx = (w, none) := by
  unfold Commit
  split
  · rfl
  · rw [h]
    simp

lemma rollback_noop (w : World) (beh : StoreBehavior) (ctx : Context)
    (h : IsTx w ctx = false) : Rollback w beh ctx = (w, none) := by
  unfold Rollback
  split
  · rfl
  · rw [h]
    simp

lemma isTx_false_of_current_none (w : World) (ctx : Context)
    (h : Current w ctx = none) : IsTx w ctx = false := by
  unfold IsTx
  rw [h]

lemma drain_eq (w : World) (ctx : Context) :
    drainCallbacks w ctx = ⟨w.heap, w.events, w.executed ++ queuedCallbacks w ctx⟩ := by
  unfold drainCallbacks queuedCallbacks
  repeat' split
  all_goals simp

end Stx

/-! Heap lemmas: effect of appending a callback on the handle heap, and
the cumulative effect of registering a whole list of callbacks. -/

namespace Stx

lemma get?_lt {α : Type} (l : List α) (n : Nat) (a : α) (h : l.get? n = some a) :
    n < l.length :=
  (List.get?_eq_some.mp h).choose

lemma heapAppendCb_eq (heap : List HandleRec) (h c : Nat) (r : HandleRec)
    (hr : heap.get? h = some r) :
    heapAppendCb heap h c = heap.set h ⟨r.db, r.callbacks ++ [c]⟩ := by
  unfold heapAppendCb
  rw [hr]

lemma onSuccess_stx (w : World) (p : Context) (h c : Nat) (r : HandleRec)
    (hr : w.heap.get? h = some r) :
    OnSuccess w (.withVal p (.stx h)) (some c)
      = ⟨w.heap.set h ⟨r.db, r.callbacks ++ [c]⟩, w.events, w.executed⟩ := by
  unfold OnSuccess
  simp [ctxValue, heapAppendCb_eq w.heap h c r hr]

lemma registerAll_eq (cs : List Nat) : ∀ (w : World) (p : Context) (h : Nat) (r : HandleRec),
    w.heap.get? h = some r →
    registerAll w (.withVal p (.stx h)) cs
      = ⟨w.heap.set h ⟨r.db, r.callbacks ++ cs⟩, w.events, w.executed⟩ := by
  induction cs with
  | nil =>
    intro w p h r hr
    unfold registerAll
    simp only [List.foldl_nil, List.append_nil]
    have hset : w.heap.set h ⟨r.db, r.callbacks⟩ = w.heap := by
      refine List.ext_get? ?_
      intro n
      by_cases hn : n = h
      · subst hn
        rw [List.get?_set_eq_of_lt _ (get?_lt _ _ _ hr), hr]
      · rw [List.get?_set_ne _ _ (fun hEq => hn hEq.symm)]
    rw [hset]
  | cons c cs ih =>
    intro w p h r hr
    unfold registerAll
    rw [List.foldl_cons]
    have step := onSuccess_stx w p h c r hr
    show registerAll (OnSuccess w (.withVal p (.stx h)) (some c)) (.withVal p (.stx h)) cs = _
    rw [step]
    have hr' : (w.heap.set h ⟨r.db, r.callbacks ++ [c]⟩).get? h
        = some ⟨r.db, r.callbacks ++ [c]⟩ := by
      rw [List.get?_set_eq_of_lt _ (get?_lt _ _ _ hr)]
    rw [ih ⟨w.heap.set h ⟨r.db, r.callbacks ++ [c]⟩, w.events, w.executed⟩ p h _ hr']
    simp [List.set_set]

end Stx

/-! Stability of handle `db` fields: no operation writes the `db` field of
an already-allocated handle; only fresh allocation sets it. -/

namespace Stx

lemma dbStable_refl (w : World) : dbStable w w := by
  intro h r hr
  rw [hr]
  rfl

lemma dbStable_heap_eq {w w' : World} (h : w'.heap = w.heap) : dbStable w w' := by
  intro i r hr
  rw [h, hr]
  rfl

lemma dbStable_trans {u v x : World} (a : dbStable u v) (b : dbStable v x) :
    dbStable u x := by
  intro h r hr
  have h2 := a h r hr
  rcases hq : v.heap.get? h with _ | r2
  · rw [hq] at h2
    simp at h2
  · rw [hq] at h2
    simp at h2
    have h3 := b h r2 hq
    rw [h3, h2]

lemma dbStable_append (w : World) (l : List HandleRec) (ev : List Event)
    (ex : List Nat) : dbStable w ⟨w.heap ++ l, ev, ex⟩ := by
  intro i r hr
  have hi : (w.heap ++ l).get? i = w.heap.get? i :=
    List.get?_append (get?_lt _ _ _ hr)
  show ((w.heap ++ l).get? i).map HandleRec.db = some r.db
  rw [hi, hr]
  rfl

lemma dbStable_set (w : World) (h : Nat) (r : HandleRec) (cbs : List Nat)
    (hr : w.heap.get? h = some r) (ev : List Event) (ex : List Nat) :
    dbStable w ⟨w.heap.set h ⟨r.db, cbs⟩, ev, ex⟩ := by
  intro i ri hi
  show ((w.heap.set h ⟨r.db, cbs⟩).get? i).map HandleRec.db = some ri.db
  by_cases hih : h = i
  · subst hih
    rw [hr] at hi
    cases hi
    rw [List.get?_set_eq_of_lt _ (get?_lt _ _ _ hr)]
    rfl
  · rw [List.get?_set_ne _ _ hih, hi]
    rfl

lemma dbStable_onSuccess (w : World) (ctx : Context) (cb : Option Nat) :
    dbStable w (OnSuccess w ctx cb) := by
  unfold OnSuccess
  rcases cb with _ | c
  · exact dbStable_refl w
  · by_cases hc : ctx = Context.nilCtx
    · simp only [hc, if_true]
      exact dbStable_refl w
    · simp only [hc, if_false]
      rcases hv : ctxValue ctx with _ | v
      · exact dbStable_heap_eq rfl
      · rcases v with _ | _ | h
        · exact dbStable_heap_eq rfl
        · exact dbStable_heap_eq rfl
        · show dbStable w ⟨heapAppendCb w.heap h c, w.events, w.executed⟩
          unfold heapAppendCb
          rcases hh : w.heap.get? h with _ | r
          · exact dbStable_heap_eq rfl
          · exact dbStable_set w h r (r.callbacks ++ [c]) hh _ _

lemma dbStable_drain (w : World) (ctx : Context) :
    dbStable w (drainCallbacks w ctx) := by
  rw [drain_eq]
  exact dbStable_heap_eq rfl

lemma dbStable_commit (w : World) (beh : StoreBehavior) (ctx : Context) :
    dbStable w (Commit w beh ctx).1 :=
  dbStable_heap_eq (commit_frame w beh ctx).1

lemma dbStable_rollback (w : World) (beh : StoreBehavior) (ctx : Context) :
    dbStable w (Rollback w beh ctx).1 :=
  dbStable_heap_eq (rollback_frame w beh ctx).1

lemma withTransaction_none (w : World) (beh : StoreBehavior) (ctx : Context)
    (fn : World → Context → World × Outcome) (hC : Current w ctx = none) :
    WithTransaction w beh ctx fn = (w, .err .invalidTransaction) := by
  unfold WithTransaction
  simp only [hC]

lemma withTransaction_ok (w w3 : World) (beh : StoreBehavior) (ctx : Context)
    (db : DB) (fn : World → Context → World × Outcome)
    (hC : Current w ctx = some db)
    (hF : fn (txScopeWorld w beh db) (txScopeCtx w ctx) = (w3, .ok)) :
    WithTransaction w beh ctx fn =
      (match beh.commitErr with
       | none =>
         (⟨(drainCallbacks w3 (txScopeCtx w ctx)).heap,
           (drainCallbacks w3 (txScopeCtx w ctx)).events ++ [.commitEvt true],
           (drainCallbacks w3 (txScopeCtx w ctx)).executed⟩, .ok)
       | some e =>
         (⟨(drainCallbacks w3 (txScopeCtx w ctx)).heap,
           (drainCallbacks w3 (txScopeCtx w ctx)).events ++ [.commitEvt false],
           (drainCallbacks w3 (txScopeCtx w ctx)).executed⟩, .err e)) := by
  unfold WithTransaction
  simp only [hC, hF]

lemma withTransaction_err (w w3 : World) (beh : StoreBehavior) (ctx : Context)
    (db : DB) (e : GErr) (fn : World → Context → World × Outcome)
    (hC : Current w ctx = some db)
    (hF : fn (txScopeWorld w beh db) (txScopeCtx w ctx) = (w3, .err e)) :
    WithTransaction w beh ctx fn
      = (⟨w3.heap, w3.events ++ [.rollbackEvt beh.rollbackErr.isNone], w3.executed⟩,
         .err e) := by
  unfold WithTransaction
  simp only [hC, hF]

lemma withTransaction_panicked (w w3 : World) (beh : StoreBehavior) (ctx : Context)
    (db : DB) (p : PanicVal) (fn : World → Context → World × Outcome)
    (hC : Current w ctx = some db)
    (hF : fn (txScopeWorld w beh db) (txScopeCtx w ctx) = (w3, .panicked p)) :
    WithTransaction w beh ctx fn
      = (⟨w3.heap, w3.events ++ [.rollbackEvt beh.rollbackErr.isNone], w3.executed⟩,
         .panicked p) := by
  unfold WithTransaction
  simp only [hC, hF]

lemma dbStable_withTransaction (w : World) (beh : StoreBehavior) (ctx : Context)
    (fn : World → Context → World × Outcome)
    (hfn : ∀ a c, dbStable a (fn a c).1) :
    dbStable w (WithTransaction w beh ctx fn).1 := by
  rcases hC : Current w ctx with _ | db
  · rw [withTransaction_none w beh ctx fn hC]
    exact dbStable_refl w
  · have h1 : dbStable w (txScopeWorld w beh db) := dbStable_append w _ _ _
    have h2 : dbStable w (fn (txScopeWorld w beh db) (txScopeCtx w ctx)).1 :=
      dbStable_trans h1 (hfn _ _)
    rcases hF : fn (txScopeWorld w beh db) (txScopeCtx w ctx) with ⟨w3, o⟩
    have h2' : dbStable w w3 := by
      rw [hF] at h2
      exact h2
    rcases o with _ | e | p
    · rw [withTransaction_ok w w3 beh ctx db fn hC hF]
      have h3 : dbStable w (drainCallbacks w3 (txScopeCtx w ctx)) :=
        dbStable_trans h2' (dbStable_drain w3 _)
      rcases hce : beh.commitErr with _ | e
      · simp only [hce]
        exact dbStable_trans h3 (dbStable_heap_eq rfl)
      · simp only [hce]
        exact dbStable_trans h3 (dbStable_heap_eq rfl)
    · rw [withTransaction_err w w3 beh ctx db e fn hC hF]
      exact dbStable_trans h2' (dbStable_heap_eq rfl)
    · rw [withTransaction_panicked w w3 beh ctx db p fn hC hF]
      exact dbStable_trans h2' (dbStable_heap_eq rfl)

end Stx

/-! Two small observers used by the drain theorems. -/

namespace Stx

lemma queued_of_get (w : World) (p : Context) (h : Nat) (r : HandleRec)
    (hr : w.heap.get? h = some r) :
    queuedCallbacks w (.withVal p (.stx h)) = r.callbacks := by
  unfold queuedCallbacks
  simp only [ctxValue, hr]

lemma queued_heap_congr {w w' : World} (h : w'.heap = w.heap) (ctx : Context) :
    queuedCallbacks w' ctx = queuedCallbacks w ctx := by
  unfold queuedCallbacks
  rw [h]

end Stx

/-! The claims. -/

namespace Stx

/-- Claim C3 (confirmed): on a context with no bound store, or one whose
active-transaction predicate is false, `Commit` and `Rollback` return nil
and leave the world — handle heap, store-event trace, execution log —
unchanged, no matter how many times they are called. -/
theorem commit_rollback_defensive_noop (w : World) (beh : StoreBehavior)
    (ctx : Context) (h : Current w ctx = none ∨ IsTx w ctx = false) :
    Commit w beh ctx = (w, none) ∧ Rollback w beh ctx = (w, none)
      ∧ (∀ n, commitIter beh ctx n w = w)
      ∧ (∀ n, rollbackIter beh ctx n w = w) := by
  have hT : IsTx w ctx = false := by
    rcases h with h | h
    · exact isTx_false_of_current_none w ctx h
    · exact h
  have hc := commit_noop w beh ctx hT
  have hr := rollback_noop w beh ctx hT
  refine ⟨hc, hr, ?_, ?_⟩
  · intro n
    induction n with
    | zero => rfl
    | succ n ih =>
      show commitIter beh ctx n (Commit w beh ctx).1 = w
      rw [hc]
      exact ih
  · intro n
    induction n with
    | zero => rfl
    | succ n ih =>
      show rollbackIter beh ctx n (Rollback w beh ctx).1 = w
      rw [hr]
      exact ih

/-- Witness for C3 at the root-store context: a store is bound but the
active-transaction predicate is false. -/
theorem commit_rollback_defensive_noop_witness :
    (Current w0 ctx0 = none ∨ IsTx w0 ctx0 = false)
      ∧ Commit w0 beh0 ctx0 = (w0, none)
      ∧ Rollback w0 beh0 ctx0 = (w0, none)
      ∧ commitIter beh0 ctx0 3 w0 = w0 :=
  ⟨Or.inr (by decide),
   (commit_rollback_defensive_noop w0 beh0 ctx0 (Or.inr (by decide))).1,
   (commit_rollback_defensive_noop w0 beh0 ctx0 (Or.inr (by decide))).2.1,
   (commit_rollback_defensive_noop w0 beh0 ctx0 (Or.inr (by decide))).2.2.1 3⟩

/-- Claim C5 (confirmed): with no bound store — nil context, nothing
under the reserved key, or a value under it that is not a well-formed
handle — `WithTransaction` returns `gorm.ErrInvalidTransaction` with the
world unchanged, uniformly in the unit of work, so the unit of work is
never invoked. -/
theorem withTransaction_no_store (w : World) (beh : StoreBehavior)
    (ctx : Context) (fn : World → Context → World × Outcome)
    (h : Current w ctx = none) :
    WithTransaction w beh ctx fn = (w, .err .invalidTransaction)
      ∧ Current w .nilCtx = none
      ∧ Current w .base = none
      ∧ (∀ p, Current w (.withVal p .notSTX) = none)
      ∧ (∀ p, Current w (.withVal p .nilSTX) = none) := by
  refine ⟨withTransaction_none w beh ctx fn h, rfl, rfl, fun p => rfl, fun p => rfl⟩

/-- Witness for C5: on a context with no value under the key, a unit of
work that would log callback 9 is never run and the error surfaces. -/
theorem withTransaction_no_store_witness :
    Current w0 Context.base = none
      ∧ WithTransaction w0 beh0 Context.base
          (fun a _ => (⟨a.heap, a.events, a.executed ++ [9]⟩, .ok))
          = (w0, .err .invalidTransaction) :=
  ⟨by decide,
   (withTransaction_no_store w0 beh0 Context.base
      (fun a _ => (⟨a.heap, a.events, a.executed ++ [9]⟩, .ok)) (by decide)).1⟩

/-- Claim C7 (confirmed): `IsTx` is true exactly when a store is bound
whose bound-connection identity is non-nil and differs from the root
connection identity; in particular it is false whenever no store is
bound. -/
theorem isTx_characterization (w : World) (ctx : Context) :
    (IsTx w ctx = true ↔
      ∃ db, Current w ctx = some db ∧ db.stmtConnPool ≠ none
        ∧ db.stmtConnPool ≠ db.rootConnPool)
      ∧ (Current w ctx = none → IsTx w ctx = false) := by
  refine ⟨?_, isTx_false_of_current_none w ctx⟩
  unfold IsTx
  rcases hC : Current w ctx with _ | db
  · simp
  · simp [Option.isSome_iff_ne_none]

/-- Witness for C7: no store bound forces the predicate false. -/
theorem isTx_characterization_witness : IsTx w0 Context.base = false :=
  (isTx_characterization w0 Context.base).2 (by decide)

/-- Claim C8 (confirmed): cleanup with no panic in flight and an already
non-nil error slot rolls back (through the defensive `Rollback`), leaves
the slot unchanged, and discards the rollback's own result — the store
behavior, a failing rollback included, never displaces the original
error, and the cleanup touches neither the heap nor the execution log. -/
theorem deferCleanup_business_error (w : World) (beh : StoreBehavior)
    (txCtx : Context) (e : GErr) :
    deferCleanup w beh txCtx none (some (some e))
        = ((Rollback w beh txCtx).1, some (some e))
      ∧ (Rollback w beh txCtx).1.heap = w.heap
      ∧ (Rollback w beh txCtx).1.executed = w.executed :=
  ⟨rfl, (rollback_frame w beh txCtx).1, (rollback_frame w beh txCtx).2⟩

end Stx

namespace Stx

/-- Claim C2 counterexample: a panic whose payload is neither an error nor
a string (here the integer 7), raised inside a live WithDefer transaction.
The cleanup does roll back and absorb the panic, but the error stored in
the slot is the bare "recovered from panic" — its message lacks the
": ..." payload suffix and it wraps nothing — so the claim's description
of the stored error is false at this input. -/
theorem deferCleanup_panic_payload_counterexample :
    deferCleanup w1 beh0 ctx1 (some (.otherVal 7)) (some none)
        = (⟨w1.heap, [.beginTx, .rollbackEvt true], []⟩,
           some (some (.simple "recovered from panic")))
      ∧ errMessage (.simple "recovered from panic") = "recovered from panic"
      ∧ unwrapErr (.simple "recovered from panic") = none
      ∧ IsTx w1 ctx1 = true := by decide

/-- Claim C2 (amended, corrected): a panic caught by WithDefer's cleanup
is absorbed (the cleanup returns normally in every case) and the
transaction is rolled back through `Rollback`; when the error pointer is
non-nil the slot receives the converted error: for an error or string
payload an STXError wrapping the payload whose message is
"recovered from panic: " followed by the payload's message, and for any
other payload the bare error "recovered from panic", wrapping nothing. -/
theorem deferCleanup_panic_conversion (w : World) (beh : StoreBehavior)
    (txCtx : Context) (r : PanicVal) (s : Option GErr) :
    deferCleanup w beh txCtx (some r) (some s)
        = ((Rollback w beh txCtx).1, some (some (panicError r)))
      ∧ deferCleanup w beh txCtx (some r) none = ((Rollback w beh txCtx).1, none)
      ∧ (∀ e, panicError (.errVal e) = .stxError "recovered from panic" e)
      ∧ (∀ t, panicError (.strVal t) = .stxError "recovered from panic" (.simple t))
      ∧ (∀ n, panicError (.otherVal n) = .simple "recovered from panic")
      ∧ (∀ e, errMessage (panicError (.errVal e))
            = "recovered from panic: " ++ errMessage e)
      ∧ (∀ t, errMessage (panicError (.strVal t)) = "recovered from panic: " ++ t)
      ∧ (∀ n, errMessage (panicError (.otherVal n)) = "recovered from panic")
      ∧ (∀ n, unwrapErr (panicError (.otherVal n)) = none) := by
  have hm : ("recovered from panic" ++ ": " : String) = "recovered from panic: " := by
    decide
  refine ⟨rfl, rfl, fun e => rfl, fun t => rfl, fun n => rfl, ?_, ?_, fun n => rfl,
    fun n => rfl⟩
  · intro e
    show ("recovered from panic" ++ ": ") ++ errMessage e
        = "recovered from panic: " ++ errMessage e
    rw [hm]
  · intro t
    show ("recovered from panic" ++ ": ") ++ t = "recovered from panic: " ++ t
    rw [hm]

/-- Claim C4 counterexample: the context produced by `New` with the root,
non-transactional store — no active transaction (`IsTx` is false), and
per the claim the callback should run immediately — yet `OnSuccess`
appends callback 5 to the handle's queue and returns without executing
anything. -/
theorem onSuccess_root_store_counterexample :
    IsTx w0 ctx0 = false
      ∧ Current w0 ctx0 = some rootDB
      ∧ OnSuccess w0 ctx0 (some 5) = ⟨[⟨some rootDB, [5]⟩], [], []⟩
      ∧ (OnSuccess w0 ctx0 (some 5)).executed = [] := by decide

/-- Claim C4 (amended, corrected): `OnSuccess` runs the callback
immediately exactly when the (non-nil) context carries no well-formed
handle under the reserved key — no value, a value that is not a `*STX`,
or a nil `*STX`; on a nil context it is a no-op; and whenever a
well-formed handle is present — even one holding a non-transactional
root store or a nil store — the callback is appended to that handle's
queue and is not invoked before `OnSuccess` returns. -/
theorem onSuccess_immediate_or_queued (w : World) (p : Context) (c h : Nat)
    (r : HandleRec) (hr : w.heap.get? h = some r) :
    OnSuccess w .base (some c) = ⟨w.heap, w.events, w.executed ++ [c]⟩
      ∧ (∀ q, OnSuccess w (.withVal q .notSTX) (some c)
            = ⟨w.heap, w.events, w.executed ++ [c]⟩)
      ∧ (∀ q, OnSuccess w (.withVal q .nilSTX) (some c)
            = ⟨w.heap, w.events, w.executed ++ [c]⟩)
      ∧ OnSuccess w .nilCtx (some c) = w
      ∧ OnSuccess w (.withVal p (.stx h)) (some c)
          = ⟨w.heap.set h ⟨r.db, r.callbacks ++ [c]⟩, w.events, w.executed⟩
      ∧ (OnSuccess w (.withVal p (.stx h)) (some c)).executed = w.executed := by
  refine ⟨rfl, fun q => rfl, fun q => rfl, rfl, onSuccess_stx w p h c r hr, ?_⟩
  rw [onSuccess_stx w p h c r hr]

/-- Witness for C4 (amended): immediate execution with a non-`*STX` value
under the key, queueing on a handle holding a nil store. -/
theorem onSuccess_immediate_or_queued_witness :
    (⟨[⟨none, []⟩], [], []⟩ : World).heap.get? 0 = some ⟨none, []⟩
      ∧ OnSuccess ⟨[⟨none, []⟩], [], []⟩ (.withVal .base .notSTX) (some 9)
          = ⟨[⟨none, []⟩], [], [9]⟩
      ∧ OnSuccess ⟨[⟨none, []⟩], [], []⟩ (.withVal .base (.stx 0)) (some 9)
          = ⟨[⟨none, [9]⟩], [], []⟩ :=
  ⟨by decide,
   (onSuccess_immediate_or_queued ⟨[⟨none, []⟩], [], []⟩ Context.base 9 0
      ⟨none, []⟩ (by decide)).2.1 Context.base,
   (onSuccess_immediate_or_queued ⟨[⟨none, []⟩], [], []⟩ Context.base 9 0
      ⟨none, []⟩ (by decide)).2.2.2.2.1⟩

end Stx

namespace Stx

/-- Claim C10 (confirmed): WithDefer's cleanup drains the queue by
copying and iterating and never clears the handle's `callbacks` field:
after a successful commit the handle still holds every registered
callback (same heap entry), the execution log gained exactly the queue
once, and a further drain of the same handle executes all of them
again. -/
theorem deferCleanup_keeps_callbacks (w : World) (beh : StoreBehavior)
    (p : Context) (h : Nat) (r : HandleRec)
    (hr : w.heap.get? h = some r)
    (hcommit : (Commit w beh (.withVal p (.stx h))).2 = none) :
    (deferCleanup w beh (.withVal p (.stx h)) none (some none)).1.heap.get? h = some r
      ∧ (deferCleanup w beh (.withVal p (.stx h)) none (some none)).1.executed
          = w.executed ++ r.callbacks
      ∧ (deferCleanup w beh (.withVal p (.stx h)) none (some none)).2 = some none
      ∧ (drainCallbacks (deferCleanup w beh (.withVal p (.stx h)) none (some none)).1
           (.withVal p (.stx h))).executed
          = w.executed ++ r.callbacks ++ r.callbacks := by
  have hcc : Commit w beh (.withVal p (.stx h))
      = ((Commit w beh (.withVal p (.stx h))).1, none) := by
    rw [← hcommit]
  have hstep : deferCleanup w beh (.withVal p (.stx h)) none (some none)
      = (drainCallbacks (Commit w beh (.withVal p (.stx h))).1 (.withVal p (.stx h)),
         some none) := by
    unfold deferCleanup
    rw [hcc]
  have hch := (commit_frame w beh (.withVal p (.stx h))).1
  have hce := (commit_frame w beh (.withVal p (.stx h))).2
  have hgh : (Commit w beh (.withVal p (.stx h))).1.heap.get? h = some r := by
    rw [hch]
    exact hr
  have hq : queuedCallbacks (Commit w beh (.withVal p (.stx h))).1
      (.withVal p (.stx h)) = r.callbacks :=
    (queued_heap_congr hch _).trans (queued_of_get w p h r hr)
  refine ⟨?_, ?_, ?_, ?_⟩
  · rw [hstep]
    show (drainCallbacks (Commit w beh (.withVal p (.stx h))).1
        (.withVal p (.stx h))).heap.get? h = some r
    rw [drain_eq]
    exact hgh
  · rw [hstep]
    show (drainCallbacks (Commit w beh (.withVal p (.stx h))).1
        (.withVal p (.stx h))).executed = w.executed ++ r.callbacks
    rw [drain_eq]
    show (Commit w beh (.withVal p (.stx h))).1.executed
        ++ queuedCallbacks (Commit w beh (.withVal p (.stx h))).1 (.withVal p (.stx h))
        = w.executed ++ r.callbacks
    rw [hce, hq]
  · rw [hstep]
  · rw [hstep]
    show (drainCallbacks (drainCallbacks (Commit w beh (.withVal p (.stx h))).1
        (.withVal p (.stx h))) (.withVal p (.stx h))).executed
        = w.executed ++ r.callbacks ++ r.callbacks
    rw [drain_eq, drain_eq]
    show (Commit w beh (.withVal p (.stx h))).1.executed
        ++ queuedCallbacks (Commit w beh (.withVal p (.stx h))).1 (.withVal p (.stx h))
        ++ queuedCallbacks
            ⟨(Commit w beh (.withVal p (.stx h))).1.heap,
             (Commit w beh (.withVal p (.stx h))).1.events,
             (Commit w beh (.withVal p (.stx h))).1.executed
               ++ queuedCallbacks (Commit w beh (.withVal p (.stx h))).1
                   (.withVal p (.stx h))⟩
            (.withVal p (.stx h))
        = w.executed ++ r.callbacks ++ r.callbacks
    rw [hce, hq]
    have hq2 : queuedCallbacks
        (⟨(Commit w beh (.withVal p (.stx h))).1.heap,
          (Commit w beh (.withVal p (.stx h))).1.events,
          w.executed ++ r.callbacks⟩ : World) (.withVal p (.stx h)) = r.callbacks :=
      (queued_heap_congr hch _).trans (queued_of_get w p h r hr)
    rw [hq2]

/-- Witness for C10 on a live transaction handle carrying callbacks
4 and 5: after the cleanup the queue is intact and a second drain runs
them again. -/
theorem deferCleanup_keeps_callbacks_witness :
    w2c.heap.get? 1 = some ⟨some ⟨some 1, some 0⟩, [4, 5]⟩
      ∧ (Commit w2c beh0 ctx1).2 = none
      ∧ (deferCleanup w2c beh0 ctx1 none (some none)).1.executed = [4, 5]
      ∧ (drainCallbacks (deferCleanup w2c beh0 ctx1 none (some none)).1 ctx1).executed
          = [4, 5, 4, 5] :=
  ⟨by decide, by decide,
   (deferCleanup_keeps_callbacks w2c beh0 ctx0 1 ⟨some ⟨some 1, some 0⟩, [4, 5]⟩
      (by decide) (by decide)).2.1,
   (deferCleanup_keeps_callbacks w2c beh0 ctx0 1 ⟨some ⟨some 1, some 0⟩, [4, 5]⟩
      (by decide) (by decide)).2.2.2⟩

end Stx

namespace Stx

lemma commit_snd_none (w : World) (beh : StoreBehavior) (ctx : Context)
    (h : beh.commitErr = none) : (Commit w beh ctx).2 = none := by
  unfold Commit
  split
  · rfl
  · split
    · simp [h]
    · rfl

lemma cleanup_success_step (w : World) (beh : StoreBehavior) (txc : Context)
    (hc : (Commit w beh txc).2 = none) :
    deferCleanup w beh txc none (some none)
      = (drainCallbacks (Commit w beh txc).1 txc, some none) := by
  have hcc : Commit w beh txc = ((Commit w beh txc).1, none) := by
    rw [← hc]
  unfold deferCleanup
  rw [hcc]

lemma cleanup_success_exec (w : World) (beh : StoreBehavior) (txc : Context)
    (hc : (Commit w beh txc).2 = none) :
    (deferCleanup w beh txc none (some none)).1.executed
      = w.executed ++ queuedCallbacks w txc := by
  rw [cleanup_success_step w beh txc hc]
  show (drainCallbacks (Commit w beh txc).1 txc).executed
      = w.executed ++ queuedCallbacks w txc
  rw [drain_eq]
  show (Commit w beh txc).1.executed ++ queuedCallbacks (Commit w beh txc).1 txc
      = w.executed ++ queuedCallbacks w txc
  rw [(commit_frame w beh txc).2, queued_heap_congr (commit_frame w beh txc).1 txc]

/-- Claim C6 (confirmed): registering callbacks `c1..cN` in that order on
one transaction scope executes, on success, exactly `c1..cN` in
registration order, once each — in both scope mechanisms: a
`WithTransaction` scope whose unit of work returns nil (the execution log
is extended by precisely the registration list and the scope returns
nil), and a `WithDefer` scope whose cleanup reaches a successful commit
(the cleanup's drain extends the execution log by precisely the
registration list and leaves the slot untouched). -/
theorem scope_callback_order (w : World) (beh : StoreBehavior)
    (ctx : Context) (db : DB) (cs : List Nat)
    (hC : Current w ctx = some db) (hcommit : beh.commitErr = none) :
    ((WithTransaction w beh ctx (fun a c => (registerAll a c cs, .ok))).1.executed
        = w.executed ++ cs
      ∧ (WithTransaction w beh ctx (fun a c => (registerAll a c cs, .ok))).2
          = .ok)
      ∧ ((deferCleanup
            (registerAll (WithDefer w beh ctx).1 (WithDefer w beh ctx).2 cs)
            beh (WithDefer w beh ctx).2 none (some none)).1.executed
          = w.executed ++ cs
        ∧ (deferCleanup
            (registerAll (WithDefer w beh ctx).1 (WithDefer w beh ctx).2 cs)
            beh (WithDefer w beh ctx).2 none (some none)).2 = some none) := by
  constructor
  · have hW2 : (txScopeWorld w beh db).heap.get? w.heap.length
        = some ⟨some (mkTxDB beh db), []⟩ := by
      show (w.heap ++ ([⟨some (mkTxDB beh db), []⟩] : List HandleRec)).get? w.heap.length
          = some ⟨some (mkTxDB beh db), []⟩
      exact List.get?_concat_length _ _
    have hreg : registerAll (txScopeWorld w beh db) (.withVal ctx (.stx w.heap.length)) cs
        = ⟨(txScopeWorld w beh db).heap.set w.heap.length ⟨some (mkTxDB beh db), cs⟩,
           (txScopeWorld w beh db).events, (txScopeWorld w beh db).executed⟩ :=
      registerAll_eq cs (txScopeWorld w beh db) ctx w.heap.length
        ⟨some (mkTxDB beh db), []⟩ hW2
    have hF : (fun (a : World) (c : Context) => (registerAll a c cs, Outcome.ok))
        (txScopeWorld w beh db) (txScopeCtx w ctx)
        = (⟨(txScopeWorld w beh db).heap.set w.heap.length ⟨some (mkTxDB beh db), cs⟩,
            (txScopeWorld w beh db).events, (txScopeWorld w beh db).executed⟩,
           Outcome.ok) := by
      show (registerAll (txScopeWorld w beh db) (.withVal ctx (.stx w.heap.length)) cs,
          Outcome.ok)
        = (⟨(txScopeWorld w beh db).heap.set w.heap.length ⟨some (mkTxDB beh db), cs⟩,
            (txScopeWorld w beh db).events, (txScopeWorld w beh db).executed⟩,
           Outcome.ok)
      rw [hreg]
    have hwt := withTransaction_ok w _ beh ctx db
      (fun (a : World) (c : Context) => (registerAll a c cs, Outcome.ok)) hC hF
    rw [hwt]
    have hlen : w.heap.length < (txScopeWorld w beh db).heap.length := by
      show w.heap.length
          < (w.heap ++ ([⟨some (mkTxDB beh db), []⟩] : List HandleRec)).length
      rw [List.length_append]
      simp
    have hw3 : ((txScopeWorld w beh db).heap.set w.heap.length
        ⟨some (mkTxDB beh db), cs⟩).get? w.heap.length
        = some ⟨some (mkTxDB beh db), cs⟩ :=
      List.get?_set_eq_of_lt _ hlen
    have hq : queuedCallbacks
        (⟨(txScopeWorld w beh db).heap.set w.heap.length ⟨some (mkTxDB beh db), cs⟩,
          (txScopeWorld w beh db).events, (txScopeWorld w beh db).executed⟩ : World)
        (txScopeCtx w ctx) = cs :=
      queued_of_get _ ctx w.heap.length ⟨some (mkTxDB beh db), cs⟩ hw3
    rw [hcommit]
    refine ⟨?_, rfl⟩
    rw [drain_eq]
    show (txScopeWorld w beh db).executed
        ++ queuedCallbacks
            (⟨(txScopeWorld w beh db).heap.set w.heap.length ⟨some (mkTxDB beh db), cs⟩,
              (txScopeWorld w beh db).events, (txScopeWorld w beh db).executed⟩ : World)
            (txScopeCtx w ctx)
        = w.executed ++ cs
    rw [hq]
    rfl
  · have hWD : WithDefer w beh ctx
        = (⟨w.heap ++ [⟨some (mkTxDB beh db), []⟩], w.events ++ [.beginTx],
            w.executed⟩, .withVal ctx (.stx w.heap.length)) := by
      show Begin w beh ctx
          = (⟨w.heap ++ [⟨some (mkTxDB beh db), []⟩], w.events ++ [.beginTx],
              w.executed⟩, .withVal ctx (.stx w.heap.length))
      unfold Begin
      simp only [hC]
    rw [hWD]
    show (deferCleanup (registerAll
          ⟨w.heap ++ [⟨some (mkTxDB beh db), []⟩], w.events ++ [.beginTx], w.executed⟩
          (.withVal ctx (.stx w.heap.length)) cs)
        beh (.withVal ctx (.stx w.heap.length)) none (some none)).1.executed
        = w.executed ++ cs
      ∧ (deferCleanup (registerAll
          ⟨w.heap ++ [⟨some (mkTxDB beh db), []⟩], w.events ++ [.beginTx], w.executed⟩
          (.withVal ctx (.stx w.heap.length)) cs)
        beh (.withVal ctx (.stx w.heap.length)) none (some none)).2 = some none
    have hget : (⟨w.heap ++ [⟨some (mkTxDB beh db), []⟩], w.events ++ [.beginTx],
        w.executed⟩ : World).heap.get? w.heap.length
        = some ⟨some (mkTxDB beh db), []⟩ := by
      show (w.heap ++ ([⟨some (mkTxDB beh db), []⟩] : List HandleRec)).get? w.heap.length
          = some ⟨some (mkTxDB beh db), []⟩
      exact List.get?_concat_length _ _
    have hreg : registerAll
        (⟨w.heap ++ [⟨some (mkTxDB beh db), []⟩], w.events ++ [.beginTx],
          w.executed⟩ : World)
        (.withVal ctx (.stx w.heap.length)) cs
        = (⟨(w.heap ++ ([⟨some (mkTxDB beh db), []⟩] : List HandleRec)).set w.heap.length
              ⟨some (mkTxDB beh db), cs⟩,
            w.events ++ [.beginTx], w.executed⟩ : World) :=
      registerAll_eq cs
        ⟨w.heap ++ [⟨some (mkTxDB beh db), []⟩], w.events ++ [.beginTx], w.executed⟩
        ctx w.heap.length ⟨some (mkTxDB beh db), []⟩ hget
    rw [hreg]
    have hlen : w.heap.length
        < ((w.heap ++ [⟨some (mkTxDB beh db), []⟩]) : List HandleRec).length := by
      rw [List.length_append]
      simp
    have hw2get : ((w.heap ++ ([⟨some (mkTxDB beh db), []⟩] : List HandleRec)).set
        w.heap.length ⟨some (mkTxDB beh db), cs⟩).get? w.heap.length
        = some ⟨some (mkTxDB beh db), cs⟩ :=
      List.get?_set_eq_of_lt _ hlen
    have hq : queuedCallbacks
        (⟨(w.heap ++ ([⟨some (mkTxDB beh db), []⟩] : List HandleRec)).set w.heap.length
            ⟨some (mkTxDB beh db), cs⟩,
          w.events ++ [.beginTx], w.executed⟩ : World)
        (.withVal ctx (.stx w.heap.length)) = cs :=
      queued_of_get _ ctx w.heap.length ⟨some (mkTxDB beh db), cs⟩ hw2get
    have hc2 : (Commit
        (⟨(w.heap ++ ([⟨some (mkTxDB beh db), []⟩] : List HandleRec)).set w.heap.length
            ⟨some (mkTxDB beh db), cs⟩,
          w.events ++ [.beginTx], w.executed⟩ : World)
        beh (.withVal ctx (.stx w.heap.length))).2 = none :=
      commit_snd_none _ beh _ hcommit
    refine ⟨?_, ?_⟩
    · rw [cleanup_success_exec _ beh _ hc2, hq]
    · rw [cleanup_success_step _ beh _ hc2]

/-- Witness for C6: three callbacks on the root-store context execute as
exactly `[1, 2, 3]`, through WithTransaction and through a WithDefer
scope's cleanup alike. -/
theorem scope_callback_order_witness :
    Current w0 ctx0 = some rootDB ∧ beh0.commitErr = none
      ∧ (WithTransaction w0 beh0 ctx0
            (fun a c => (registerAll a c [1, 2, 3], .ok))).1.executed
          = w0.executed ++ [1, 2, 3]
      ∧ (deferCleanup
            (registerAll (WithDefer w0 beh0 ctx0).1 (WithDefer w0 beh0 ctx0).2 [1, 2, 3])
            beh0 (WithDefer w0 beh0 ctx0).2 none (some none)).1.executed
          = w0.executed ++ [1, 2, 3] :=
  ⟨by decide, rfl,
   (scope_callback_order w0 beh0 ctx0 rootDB [1, 2, 3] (by decide) rfl).1.1,
   (scope_callback_order w0 beh0 ctx0 rootDB [1, 2, 3] (by decide) rfl).2.1⟩

end Stx

namespace Stx

/-- Claim C9 (confirmed): no operation mutates an existing handle's store
field after construction: `New`, `Begin` (when a store is bound) and
`WithTransaction` each install a newly constructed handle (at a fresh
heap slot) into a newly derived context, and every operation — including
a `WithTransaction` whose unit of work itself preserves store fields —
leaves the `db` field of every previously allocated handle intact. -/
theorem handle_store_immutable (w : World) (beh : StoreBehavior) (ctx : Context)
    (db : Option DB) (cb : Option Nat) (fn : World → Context → World × Outcome)
    (hfn : ∀ a c, dbStable a (fn a c).1) :
    dbStable w (New w ctx db).1
      ∧ (New w ctx db).2 = .withVal ctx (.stx w.heap.length)
      ∧ dbStable w (Begin w beh ctx).1
      ∧ (∀ d, Current w ctx = some d →
            (Begin w beh ctx).2 = .withVal ctx (.stx w.heap.length))
      ∧ dbStable w (OnSuccess w ctx cb)
      ∧ dbStable w (Commit w beh ctx).1
      ∧ dbStable w (Rollback w beh ctx).1
      ∧ dbStable w (WithTransaction w beh ctx fn).1 := by
  refine ⟨dbStable_append w _ _ _, rfl, ?_, ?_, dbStable_onSuccess w ctx cb,
    dbStable_commit w beh ctx, dbStable_rollback w beh ctx,
    dbStable_withTransaction w beh ctx fn hfn⟩
  · rcases hC : Current w ctx with _ | d
    · have hB : Begin w beh ctx = (w, ctx) := by
        unfold Begin
        simp only [hC]
      rw [hB]
      exact dbStable_refl w
    · have hB : Begin w beh ctx
          = (⟨w.heap ++ [⟨some (mkTxDB beh d), []⟩], w.events ++ [.beginTx],
              w.executed⟩, .withVal ctx (.stx w.heap.length)) := by
        unfold Begin
        simp only [hC]
      rw [hB]
      exact dbStable_append w _ _ _
  · intro d hC
    have hB : Begin w beh ctx
        = (⟨w.heap ++ [⟨some (mkTxDB beh d), []⟩], w.events ++ [.beginTx],
            w.executed⟩, .withVal ctx (.stx w.heap.length)) := by
      unfold Begin
      simp only [hC]
    rw [hB]

/-- Witness for C9 at the root-store world, with the identity unit of
work (which trivially preserves store fields). -/
theorem handle_store_immutable_witness :
    (∀ a c, dbStable a ((fun (x : World) (_ : Context) => (x, Outcome.ok)) a c).1)
      ∧ dbStable w0 (New w0 ctx0 none).1
      ∧ (New w0 ctx0 none).2 = .withVal ctx0 (.stx 1)
      ∧ dbStable w0
          (WithTransaction w0 beh0 ctx0 (fun (x : World) (_ : Context) => (x, Outcome.ok))).1 :=
  ⟨fun a _ => dbStable_refl a,
   (handle_store_immutable w0 beh0 ctx0 none none
      (fun (x : World) (_ : Context) => (x, Outcome.ok)) (fun a _ => dbStable_refl a)).1,
   (handle_store_immutable w0 beh0 ctx0 none none
      (fun (x : World) (_ : Context) => (x, Outcome.ok)) (fun a _ => dbStable_refl a)).2.1,
   (handle_store_immutable w0 beh0 ctx0 none none
      (fun (x : World) (_ : Context) => (x, Outcome.ok)) (fun a _ => dbStable_refl a)).2.2.2.2.2.2.2⟩

end Stx

namespace Stx

/-- Claim C1 counterexample: on a store whose commit step fails, the
callback registered during `WithTransaction` runs (execution log `[7]`)
although the scope's transaction does not commit — the store trace ends
with a failed commit and `WithTransaction` surfaces the commit error —
refuting "callbacks execute only if the transaction commits". -/
theorem withTransaction_commit_failure_counterexample :
    (WithTransaction w0 behCF ctx0
        (fun a c => (OnSuccess a c (some 7), .ok))).1.executed = [7]
      ∧ (WithTransaction w0 behCF ctx0
          (fun a c => (OnSuccess a c (some 7), .ok))).2 = .err (.storeErr 1)
      ∧ (WithTransaction w0 behCF ctx0
          (fun a c => (OnSuccess a c (some 7), .ok))).1.events
        = [.beginTx, .commitEvt false] := by decide

/-- Claim C1 (amended, corrected): the scope machinery executes the
registered callbacks iff the protected body succeeds, not iff the
transaction commits.  In `WithTransaction`, when the unit of work returns
an error or panics the machinery adds no callback execution (rollback
path); when it returns nil the machinery drains the scope handle's queue
— immediately before the commit step, hence regardless of whether that
commit succeeds.  In `WithDefer`'s cleanup, no callback runs after a
recovered panic, after a pre-existing business error, or after a failed
commit; the queue is drained exactly when `Commit` returns nil. -/
theorem scope_callback_gating (w w3 : World) (beh : StoreBehavior)
    (ctx : Context) (db : DB) (fn : World → Context → World × Outcome)
    (hC : Current w ctx = some db) :
    (∀ e, fn (txScopeWorld w beh db) (txScopeCtx w ctx) = (w3, .err e) →
        (WithTransaction w beh ctx fn).1.executed = w3.executed)
      ∧ (∀ p, fn (txScopeWorld w beh db) (txScopeCtx w ctx) = (w3, .panicked p) →
          (WithTransaction w beh ctx fn).1.executed = w3.executed)
      ∧ (fn (txScopeWorld w beh db) (txScopeCtx w ctx) = (w3, .ok) →
          (WithTransaction w beh ctx fn).1.executed
            = w3.executed ++ queuedCallbacks w3 (txScopeCtx w ctx))
      ∧ (∀ txc r slot, (deferCleanup w beh txc (some r) slot).1.executed = w.executed)
      ∧ (∀ txc e, (deferCleanup w beh txc none (some (some e))).1.executed
            = w.executed)
      ∧ (∀ txc slot ce, (Commit w beh txc).2 = some ce →
          (deferCleanup w beh txc none slot).1.executed = w.executed)
      ∧ (∀ txc slot, slot = none ∨ slot = some none → (Commit w beh txc).2 = none →
          (deferCleanup w beh txc none slot).1.executed
            = w.executed ++ queuedCallbacks w txc) := by
  refine ⟨?_, ?_, ?_, ?_, ?_, ?_, ?_⟩
  · intro e hF
    rw [withTransaction_err w w3 beh ctx db e fn hC hF]
  · intro p hF
    rw [withTransaction_panicked w w3 beh ctx db p fn hC hF]
  · intro hF
    rw [withTransaction_ok w w3 beh ctx db fn hC hF]
    rcases hce : beh.commitErr with _ | e
    · show (drainCallbacks w3 (txScopeCtx w ctx)).executed
          = w3.executed ++ queuedCallbacks w3 (txScopeCtx w ctx)
      rw [drain_eq]
    · show (drainCallbacks w3 (txScopeCtx w ctx)).executed
          = w3.executed ++ queuedCallbacks w3 (txScopeCtx w ctx)
      rw [drain_eq]
  · intro txc r slot
    rcases slot with _ | s
    · exact (rollback_frame w beh txc).2
    · exact (rollback_frame w beh txc).2
  · intro txc e
    exact (rollback_frame w beh txc).2
  · intro txc slot ce hc
    have hcc : Commit w beh txc = ((Commit w beh txc).1, some ce) := by
      rw [← hc]
    rcases slot with _ | s
    · have hd : deferCleanup w beh txc none none = ((Commit w beh txc).1, none) := by
        unfold deferCleanup
        rw [hcc]
      rw [hd]
      exact (commit_frame w beh txc).2
    · rcases s with _ | e
      · have hd : deferCleanup w beh txc none (some none)
            = ((Commit w beh txc).1,
               some (some (.stxError "failed to commit transaction" ce))) := by
          unfold deferCleanup
          rw [hcc]
        rw [hd]
        exact (commit_frame w beh txc).2
      · exact (rollback_frame w beh txc).2
  · intro txc slot hslot hc
    have hcc : Commit w beh txc = ((Commit w beh txc).1, none) := by
      rw [← hc]
    rcases hslot with h1 | h1
    · subst h1
      have hd : deferCleanup w beh txc none none
          = (drainCallbacks (Commit w beh txc).1 txc, none) := by
        unfold deferCleanup
        rw [hcc]
      rw [hd]
      show (drainCallbacks (Commit w beh txc).1 txc).executed
          = w.executed ++ queuedCallbacks w txc
      rw [drain_eq]
      show (Commit w beh txc).1.executed
          ++ queuedCallbacks (Commit w beh txc).1 txc
          = w.executed ++ queuedCallbacks w txc
      rw [(commit_frame w beh txc).2, queued_heap_congr (commit_frame w beh txc).1 txc]
    · subst h1
      have hd : deferCleanup w beh txc none (some none)
          = (drainCallbacks (Commit w beh txc).1 txc, some none) := by
        unfold deferCleanup
        rw [hcc]
      rw [hd]
      show (drainCallbacks (Commit w beh txc).1 txc).executed
          = w.executed ++ queuedCallbacks w txc
      rw [drain_eq]
      show (Commit w beh txc).1.executed
          ++ queuedCallbacks (Commit w beh txc).1 txc
          = w.executed ++ queuedCallbacks w txc
      rw [(commit_frame w beh txc).2, queued_heap_congr (commit_frame w beh txc).1 txc]

/-- Witness for C1 (amended): an erroring unit of work leaves the
execution log exactly as the unit of work left it, and a recovered panic
in a WithDefer cleanup adds no callback execution. -/
theorem scope_callback_gating_witness :
    Current w0 ctx0 = some rootDB
      ∧ (WithTransaction w0 beh0 ctx0
            (fun (a : World) (_ : Context) => (a, Outcome.err (.storeErr 2)))).1.executed
          = (txScopeWorld w0 beh0 rootDB).executed
      ∧ (deferCleanup w0 beh0 ctx1 (some (.strVal "boom")) (some none)).1.executed
          = w0.executed :=
  ⟨by decide,
   (scope_callback_gating w0 (txScopeWorld w0 beh0 rootDB) beh0 ctx0 rootDB
      (fun (a : World) (_ : Context) => (a, Outcome.err (.storeErr 2)))
      (by decide)).1 (.storeErr 2) rfl,
   (scope_callback_gating w0 (txScopeWorld w0 beh0 rootDB) beh0 ctx0 rootDB
      (fun (a : World) (_ : Context) => (a, Outcome.err (.storeErr 2)))
      (by decide)).2.2.2.1 ctx1 (.strVal "boom") (some none)⟩

end Stx
